import Mathlib

/-!
Shallow embedding of the tch-rs tensor codec: `src/wrappers/kind.rs` (the
element-kind registry) and `src/wrappers/serde.rs` (the serde Serialize /
Deserialize implementations for `Tensor`).

Machine values are modelled at the bit-pattern level: every tensor element is
stored as the natural number whose big-endian base-256 digits are the bytes of
the element's machine representation (for `u8` the byte itself, for `i32`/`i64`
the two's-complement pattern, for `f32`/`f64` the IEEE-754 bit pattern).  Rust's
`to_be_bytes` / `from_be_bytes` act on exactly these patterns, so the codec's
byte-level behaviour is captured exactly.  Panicking paths (`unimplemented!`,
`panic!`, a failed `unwrap`) are modelled as the distinguished outcome
`Failure.panicked`; serde's recoverable `de::Error` values keep their own
constructors.
-/

/-- The element kinds a Tensor can hold (kind.rs, enum Kind). -/
inductive Kind where
  | Uint8
  | Int8
  | Int16
  | Int
  | Int64
  | Half
  | Float
  | Double
  | ComplexHalf
  | ComplexFloat
  | ComplexDouble
  | Bool
  deriving DecidableEq, Repr

/-- Failure outcomes of the codec.  `panicked` is a process abort
(`unimplemented!`, `panic!`, or a failed `unwrap`); every other constructor is a
recoverable serde `de::Error` returned to the caller, plus the external
runtime's shape-mismatch failure. -/
inductive Failure where
  | panicked
  | unknownField (name : String)
  | duplicateField (name : String)
  | missingField (name : String)
  | unknownVariant (tag : ℕ)
  | invalidType
  | shapeMismatch
  deriving DecidableEq, Repr

/-- A failure is recoverable when it is reported to the caller as an error
value rather than aborting the process. -/
def Failure.isRecoverable : Failure → Prop
  | .panicked => False
  | _ => True

instance (f : Failure) : Decidable f.isRecoverable := by
  unfold Failure.isRecoverable
  cases f <;> infer_instance

/-- kind.rs Kind::c_int: the stable external integer tag of a kind. -/
def Kind.c_int : Kind → ℤ
  | .Uint8 => 0
  | .Int8 => 1
  | .Int16 => 2
  | .Int => 3
  | .Int64 => 4
  | .Half => 5
  | .Float => 6
  | .Double => 7
  | .ComplexHalf => 8
  | .ComplexFloat => 9
  | .ComplexDouble => 10
  | .Bool => 11

/-- kind.rs Kind::of_c_int: the kind of a tag; any tag outside the table hits
`panic!("unexpected kind")`, a process abort. -/
def Kind.of_c_int (v : ℤ) : Except Failure Kind :=
  if v = 0 then .ok .Uint8
  else if v = 1 then .ok .Int8
  else if v = 2 then .ok .Int16
  else if v = 3 then .ok .Int
  else if v = 4 then .ok .Int64
  else if v = 5 then .ok .Half
  else if v = 6 then .ok .Float
  else if v = 7 then .ok .Double
  else if v = 8 then .ok .ComplexHalf
  else if v = 9 then .ok .ComplexFloat
  else if v = 10 then .ok .ComplexDouble
  else if v = 11 then .ok .Bool
  else .error .panicked

/-- kind.rs Kind::elt_size_in_bytes: byte width of one element. -/
def Kind.elt_size_in_bytes : Kind → ℕ
  | .Uint8 => 1
  | .Int8 => 1
  | .Int16 => 2
  | .Int => 4
  | .Int64 => 8
  | .Half => 2
  | .Float => 4
  | .Double => 8
  | .ComplexHalf => 4
  | .ComplexFloat => 8
  | .ComplexDouble => 16
  | .Bool => 1

/-- Modelled from the spec: the derived serde Serialize for Kind (kind.rs line
8) encodes a unit variant, whose index in declaration order is the kind's
stable tag (spec section 6: the kind is encoded however the chosen format
encodes enum tags). -/
def Kind.variantIndex : Kind → ℕ
  | .Uint8 => 0
  | .Int8 => 1
  | .Int16 => 2
  | .Int => 3
  | .Int64 => 4
  | .Half => 5
  | .Float => 6
  | .Double => 7
  | .ComplexHalf => 8
  | .ComplexFloat => 9
  | .ComplexDouble => 10
  | .Bool => 11

/-- Modelled from the spec: the derived serde Deserialize for Kind (kind.rs
line 8) accepts a variant index inside the enumeration and reports any other
tag as a recoverable unknown-variant error (spec sections 4.1 and 7,
UnknownKind at a trust boundary). -/
def Kind.deserializeTag (tag : ℕ) : Except Failure Kind :=
  if tag = 0 then .ok .Uint8
  else if tag = 1 then .ok .Int8
  else if tag = 2 then .ok .Int16
  else if tag = 3 then .ok .Int
  else if tag = 4 then .ok .Int64
  else if tag = 5 then .ok .Half
  else if tag = 6 then .ok .Float
  else if tag = 7 then .ok .Double
  else if tag = 8 then .ok .ComplexHalf
  else if tag = 9 then .ok .ComplexFloat
  else if tag = 10 then .ok .ComplexDouble
  else if tag = 11 then .ok .Bool
  else .error (.unknownVariant tag)

/-- The codec-supported kinds: the five arms of the serialize and deserialize
dispatch (serde.rs lines 23-30 and 133-140). -/
def supportedKind : Kind → Bool
  | .Uint8 => true
  | .Int => true
  | .Int64 => true
  | .Float => true
  | .Double => true
  | _ => false

/-- Big-endian bytes of the w-byte value x, most significant byte first
(Rust to_be_bytes at the bit-pattern level). -/
def to_be_bytes : ℕ → ℕ → List ℕ
  | 0, _ => []
  | w + 1, x => x / 256 ^ w % 256 :: to_be_bytes w x

/-- Big-endian value of a byte list (Rust from_be_bytes at the bit-pattern
level). -/
def from_be_bytes (bs : List ℕ) : ℕ := bs.foldl (fun a b => 256 * a + b) 0

/-- serde.rs to_bytes_num_impl, the element-to-byte stage: flat-map each
element to its big-endian bytes, concatenated without padding. -/
def encodeElems (w : ℕ) (xs : List ℕ) : List ℕ := (xs.map (to_be_bytes w)).flatten

/-- serde.rs from_bytes_num_impl, the byte-to-element stage: `data.chunks(n)`
followed by `try_into().unwrap()` and `from_be_bytes` on each chunk.  When the
payload length is not a multiple of the width the final chunk is short, its
`try_into` fails, and the `unwrap` panics. -/
def decodeChunks (w : ℕ) (data : List ℕ) : Except Failure (List ℕ) :=
  if w = 0 then .error .panicked
  else if data.length % w = 0 then
    .ok ((List.range (data.length / w)).map fun i =>
      from_be_bytes ((data.drop (i * w)).take w))
  else .error .panicked

/-- Modelled from the spec: the external tensor runtime's view of a tensor —
an element kind, a shape of non-negative extents, and flat row-major storage
(spec sections 3 and 6); each element is the big-endian integer value of its
`elt_size_in_bytes` machine bytes. -/
structure Tensor where
  kind : Kind
  size : List ℕ
  data : List ℕ
  deriving DecidableEq, Repr

/-- Modelled from the spec: `self.view((n,))` — reshape to a 1-D shape of n
elements; the external runtime fails when the element count mismatches (spec
section 6, reshape_in_place). -/
def Tensor.view (t : Tensor) (n : ℕ) : Except Failure Tensor :=
  if t.data.length = n then .ok ⟨t.kind, [n], t.data⟩ else .error .shapeMismatch

/-- Modelled from the spec: `tensor.view_(&size)` — reshape to the declared
multi-dimensional size, failing on an element-count mismatch (spec sections 4.3
and 7, ShapeMismatch). -/
def Tensor.view_ (t : Tensor) (size : List ℕ) : Except Failure Tensor :=
  if t.data.length = size.prod then .ok ⟨t.kind, size, t.data⟩
  else .error .shapeMismatch

/-- Modelled from the spec: Tensor::of_slice — a fresh 1-D tensor holding the
given flat values (spec section 6, from_flat_values). -/
def Tensor.of_slice (k : Kind) (xs : List ℕ) : Tensor := ⟨k, [xs.length], xs⟩

/-- serde.rs impl ToBytes for u8. -/
def u8.to_bytes (t : Tensor) : List ℕ := encodeElems 1 t.data

/-- serde.rs impl ToBytes for i32. -/
def i32.to_bytes (t : Tensor) : List ℕ := encodeElems 4 t.data

/-- serde.rs impl ToBytes for i64. -/
def i64.to_bytes (t : Tensor) : List ℕ := encodeElems 8 t.data

/-- serde.rs impl ToBytes for f32. -/
def f32.to_bytes (t : Tensor) : List ℕ := encodeElems 4 t.data

/-- serde.rs impl ToBytes for f64. -/
def f64.to_bytes (t : Tensor) : List ℕ := encodeElems 8 t.data

/-- serde.rs impl FromBytes for u8: decode chunks of 1 byte, then
Tensor::of_slice. -/
def u8.from_bytes (data : List ℕ) : Except Failure Tensor :=
  (decodeChunks 1 data).map (Tensor.of_slice .Uint8)

/-- serde.rs impl FromBytes for i32. -/
def i32.from_bytes (data : List ℕ) : Except Failure Tensor :=
  (decodeChunks 4 data).map (Tensor.of_slice .Int)

/-- serde.rs impl FromBytes for i64. -/
def i64.from_bytes (data : List ℕ) : Except Failure Tensor :=
  (decodeChunks 8 data).map (Tensor.of_slice .Int64)

/-- serde.rs impl FromBytes for f32. -/
def f32.from_bytes (data : List ℕ) : Except Failure Tensor :=
  (decodeChunks 4 data).map (Tensor.of_slice .Float)

/-- serde.rs impl FromBytes for f64. -/
def f64.from_bytes (data : List ℕ) : Except Failure Tensor :=
  (decodeChunks 8 data).map (Tensor.of_slice .Double)

/-- The serialized record: kind, declared size and big-endian payload
(spec section 3, SerializedRecord). -/
structure Record where
  kind : Kind
  size : List ℕ
  data : List ℕ
  deriving DecidableEq, Repr

/-- serde.rs impl Serialize for Tensor: read kind and size, flatten to a 1-D
view of `size.prod` elements, dispatch on the kind to the typed big-endian
encoder, and emit the kind/size/data record.  An unsupported kind hits
`unimplemented!`, a process abort. -/
def serialize (t : Tensor) : Except Failure Record :=
  match t.view t.size.prod with
  | .error e => .error e
  | .ok flat =>
    match (match t.kind with
      | .Uint8 => Except.ok (u8.to_bytes flat)
      | .Int => .ok (i32.to_bytes flat)
      | .Int64 => .ok (i64.to_bytes flat)
      | .Float => .ok (f32.to_bytes flat)
      | .Double => .ok (f64.to_bytes flat)
      | _ => .error Failure.panicked) with
    | .error e => .error e
    | .ok bytes => .ok ⟨t.kind, t.size, bytes⟩

/-- serde.rs Field: the three recognised field identifiers (named TensorField here because Mathlib already declares Field). -/
inductive TensorField where
  | kind
  | size
  | data
  deriving DecidableEq, Repr

/-- serde.rs FieldVisitor::visit_str: map a field-name string to a Field; any
other name is a recoverable unknown-field error. -/
def TensorField.visit_str (s : String) : Except Failure TensorField :=
  if s = "kind" then .ok .kind
  else if s = "size" then .ok .size
  else if s = "data" then .ok .data
  else .error (.unknownField s)

/-- Value of one map entry as the serde data model delivers it: the kind as an
enum variant tag, the size as a sequence of extents, the data as raw bytes
(spec section 6). -/
inductive Value where
  | vKind (tag : ℕ)
  | vSize (size : List ℕ)
  | vData (data : List ℕ)
  deriving DecidableEq, Repr

/-- Reading the kind field's value (`map.next_value` at a Kind type): the
derived Kind deserializer runs on the variant tag; any other payload shape is a
recoverable invalid-type error. -/
def Value.asKind : Value → Except Failure Kind
  | .vKind tag => Kind.deserializeTag tag
  | _ => .error .invalidType

/-- Reading the size field's value (`map.next_value` at Vec of i64). -/
def Value.asSize : Value → Except Failure (List ℕ)
  | .vSize s => .ok s
  | _ => .error .invalidType

/-- Reading the data field's value (`map.next_value` at ByteBuf). -/
def Value.asData : Value → Except Failure (List ℕ)
  | .vData d => .ok d
  | _ => .error .invalidType

/-- serde.rs TensorVisitor::visit_map, the while-let loop: keys are read in
arrival order; a repeated field is rejected (duplicate_field) before its value
is read; an unrecognised key fails in FieldVisitor. -/
def visitEntries : List (String × Value) → Option Kind → Option (List ℕ) →
    Option (List ℕ) →
    Except Failure (Option Kind × Option (List ℕ) × Option (List ℕ))
  | [], k, s, d => .ok (k, s, d)
  | (key, v) :: rest, k, s, d =>
    match TensorField.visit_str key with
    | .error e => .error e
    | .ok .kind =>
      match k with
      | some _ => .error (.duplicateField ("kind"))
      | none =>
        match v.asKind with
        | .error e => .error e
        | .ok kk => visitEntries rest (some kk) s d
    | .ok .size =>
      match s with
      | some _ => .error (.duplicateField ("size"))
      | none =>
        match v.asSize with
        | .error e => .error e
        | .ok ss => visitEntries rest k (some ss) d
    | .ok .data =>
      match d with
      | some _ => .error (.duplicateField ("data"))
      | none =>
        match v.asData with
        | .error e => .error e
        | .ok dd => visitEntries rest k s (some dd)

/-- serde.rs TensorVisitor::visit_map after the loop: require all three fields
(missing_field otherwise), dispatch on the kind to the typed byte decoder
(an unsupported kind hits `unimplemented!`, a process abort), then reshape to
the declared size. -/
def visit_map (entries : List (String × Value)) : Except Failure Tensor :=
  match visitEntries entries none none none with
  | .error e => .error e
  | .ok (k, s, d) =>
    match k with
    | none => .error (.missingField ("kind"))
    | some kind =>
      match s with
      | none => .error (.missingField ("size"))
      | some size =>
        match d with
        | none => .error (.missingField ("data"))
        | some data =>
          match (match kind with
            | .Uint8 => u8.from_bytes data
            | .Int => i32.from_bytes data
            | .Int64 => i64.from_bytes data
            | .Float => f32.from_bytes data
            | .Double => f64.from_bytes data
            | _ => .error Failure.panicked) with
          | .error e => .error e
          | .ok tensor => tensor.view_ size

/-- The map entries serialize emits for a record, in field order kind, size,
data, the kind as its serde variant tag (serde.rs lines 34-40 and the test's
token stream). -/
def Record.entries (r : Record) : List (String × Value) :=
  [("kind", .vKind r.kind.variantIndex), ("size", .vSize r.size),
   ("data", .vData r.data)]

/-- Decoding a serialized record: impl Deserialize for Tensor applied to the
record's map entries. -/
def deserializeRecord (r : Record) : Except Failure Tensor :=
  visit_map r.entries

theorem to_be_bytes_length (w x : ℕ) : (to_be_bytes w x).length = w := by
  induction w generalizing x with
  | zero => rfl
  | succ w ih => simp [to_be_bytes, ih]

theorem foldl_be_acc (bs : List ℕ) (a : ℕ) :
    bs.foldl (fun a b => 256 * a + b) a = a * 256 ^ bs.length + from_be_bytes bs := by
  induction bs generalizing a with
  | nil => simp [from_be_bytes]
  | cons b bs ih =>
    simp only [from_be_bytes, List.foldl_cons, List.length_cons] at *
    rw [ih (256 * a + b), ih (256 * 0 + b)]
    ring

theorem from_be_bytes_cons (b : ℕ) (bs : List ℕ) :
    from_be_bytes (b :: bs) = b * 256 ^ bs.length + from_be_bytes bs := by
  simp only [from_be_bytes, List.foldl_cons]
  simpa using foldl_be_acc bs (256 * 0 + b)

theorem from_be_bytes_to_be_bytes (w x : ℕ) :
    from_be_bytes (to_be_bytes w x) = x % 256 ^ w := by
  induction w generalizing x with
  | zero => simp [to_be_bytes, from_be_bytes, Nat.mod_one]
  | succ w ih =>
    rw [to_be_bytes, from_be_bytes_cons, to_be_bytes_length, ih, pow_succ,
      Nat.mod_mul]
    ring

theorem from_be_bytes_to_be_bytes_of_lt (w x : ℕ) (h : x < 256 ^ w) :
    from_be_bytes (to_be_bytes w x) = x := by
  rw [from_be_bytes_to_be_bytes, Nat.mod_eq_of_lt h]

theorem encodeElems_cons (w x : ℕ) (xs : List ℕ) :
    encodeElems w (x :: xs) = to_be_bytes w x ++ encodeElems w xs := by
  simp [encodeElems]

theorem encodeElems_length (w : ℕ) (xs : List ℕ) :
    (encodeElems w xs).length = xs.length * w := by
  induction xs with
  | nil => simp [encodeElems]
  | cons x xs ih =>
    simp [encodeElems_cons, to_be_bytes_length, ih, Nat.succ_mul, Nat.add_comm]

theorem encodeElems_chunks (w : ℕ) (xs : List ℕ) (hx : ∀ x ∈ xs, x < 256 ^ w) :
    (List.range xs.length).map
      (fun i => from_be_bytes (((encodeElems w xs).drop (i * w)).take w)) = xs := by
  induction xs with
  | nil => simp
  | cons x xs ih =>
    have hx0 : x < 256 ^ w := hx x (by simp)
    have hxs : ∀ y ∈ xs, y < 256 ^ w := fun y hy => hx y (by simp [hy])
    rw [List.length_cons, List.range_succ_eq_map, List.map_cons, List.map_map]
    congr 1
    · simp only [Nat.zero_mul, List.drop_zero, encodeElems_cons]
      rw [List.take_left' (to_be_bytes_length w x),
        from_be_bytes_to_be_bytes_of_lt _ _ hx0]
    · have hcomp :
          ((fun i => from_be_bytes (((encodeElems w (x :: xs)).drop (i * w)).take w))
              ∘ Nat.succ) =
            fun i => from_be_bytes (((encodeElems w xs).drop (i * w)).take w) := by
        funext i
        simp only [Function.comp_apply, encodeElems_cons]
        rw [show Nat.succ i * w = (to_be_bytes w x).length + i * w by
          rw [to_be_bytes_length, Nat.succ_mul, Nat.add_comm], List.drop_append]
      rw [hcomp, ih hxs]

theorem decodeChunks_encodeElems (w : ℕ) (hw : w ≠ 0) (xs : List ℕ)
    (hx : ∀ x ∈ xs, x < 256 ^ w) :
    decodeChunks w (encodeElems w xs) = .ok xs := by
  unfold decodeChunks
  rw [if_neg hw, encodeElems_length, if_pos (Nat.mul_mod_left _ _),
    Nat.mul_div_cancel _ (Nat.pos_of_ne_zero hw)]
  exact congrArg Except.ok (encodeElems_chunks w xs hx)

theorem decodeChunks_one (bs : List ℕ) : decodeChunks 1 bs = .ok bs := by
  have key : ∀ l : List ℕ,
      (List.range l.length).map (fun i => from_be_bytes ((l.drop i).take 1)) = l := by
    intro l
    induction l with
    | nil => simp
    | cons x xs ih =>
      rw [List.length_cons, List.range_succ_eq_map, List.map_cons, List.map_map]
      have hcomp :
          ((fun i => from_be_bytes (((x :: xs).drop i).take 1)) ∘ Nat.succ) =
            fun i => from_be_bytes ((xs.drop i).take 1) := by
        funext i
        simp [Function.comp_apply, Nat.succ_eq_add_one, List.drop_succ_cons]
      rw [hcomp, ih]
      simp [from_be_bytes]
  unfold decodeChunks
  simp [Nat.mod_one, Nat.div_one, key]

theorem decodeChunks_not_dvd (w : ℕ) (bs : List ℕ) (h : bs.length % w ≠ 0) :
    decodeChunks w bs = .error .panicked := by
  unfold decodeChunks
  rcases eq_or_ne w 0 with rfl | hw
  · simp
  · rw [if_neg hw, if_neg h]

theorem deserializeTag_variantIndex (k : Kind) :
    Kind.deserializeTag k.variantIndex = .ok k := by
  cases k <;> rfl

theorem visit_str_kind : TensorField.visit_str ("kind") = .ok .kind := rfl

theorem visit_str_size : TensorField.visit_str ("size") = .ok .size := rfl

theorem visit_str_data : TensorField.visit_str ("data") = .ok .data := rfl

theorem visitEntries_entries (r : Record) :
    visitEntries r.entries none none none =
      .ok (some r.kind, some r.size, some r.data) := by
  simp [Record.entries, visitEntries, visit_str_kind, visit_str_size,
    visit_str_data, Value.asKind, Value.asSize, Value.asData,
    deserializeTag_variantIndex]

theorem serialize_supported (t : Tensor) (hlen : t.data.length = t.size.prod)
    (hk : supportedKind t.kind = true) :
    serialize t =
      .ok ⟨t.kind, t.size, encodeElems t.kind.elt_size_in_bytes t.data⟩ := by
  obtain ⟨k, sz, d⟩ := t
  cases k <;>
    simp_all [serialize, Tensor.view, supportedKind, u8.to_bytes, i32.to_bytes,
      i64.to_bytes, f32.to_bytes, f64.to_bytes, Kind.elt_size_in_bytes]

theorem pow256 (w : ℕ) : (256 : ℕ) ^ w = 2 ^ (8 * w) := by
  rw [pow_mul]
  norm_num

theorem deserializeRecord_encodeElems (t : Tensor)
    (hlen : t.data.length = t.size.prod) (hk : supportedKind t.kind = true)
    (hx : ∀ x ∈ t.data, x < 2 ^ (8 * t.kind.elt_size_in_bytes)) :
    deserializeRecord
        ⟨t.kind, t.size, encodeElems t.kind.elt_size_in_bytes t.data⟩ =
      .ok t := by
  obtain ⟨k, sz, d⟩ := t
  simp only at hlen hx hk
  cases k
  case Uint8 =>
    have hdec : decodeChunks 1 (encodeElems 1 d) = .ok d :=
      decodeChunks_encodeElems 1 (by norm_num) d
        (by simpa [pow256, Kind.elt_size_in_bytes] using hx)
    simp [deserializeRecord, visit_map, visitEntries_entries, u8.from_bytes,
      Kind.elt_size_in_bytes, hdec, Except.map, Tensor.of_slice, Tensor.view_,
      hlen]
  case Int =>
    have hdec : decodeChunks 4 (encodeElems 4 d) = .ok d :=
      decodeChunks_encodeElems 4 (by norm_num) d
        (by simpa [pow256, Kind.elt_size_in_bytes] using hx)
    simp [deserializeRecord, visit_map, visitEntries_entries, i32.from_bytes,
      Kind.elt_size_in_bytes, hdec, Except.map, Tensor.of_slice, Tensor.view_,
      hlen]
  case Int64 =>
    have hdec : decodeChunks 8 (encodeElems 8 d) = .ok d :=
      decodeChunks_encodeElems 8 (by norm_num) d
        (by simpa [pow256, Kind.elt_size_in_bytes] using hx)
    simp [deserializeRecord, visit_map, visitEntries_entries, i64.from_bytes,
      Kind.elt_size_in_bytes, hdec, Except.map, Tensor.of_slice, Tensor.view_,
      hlen]
  case Float =>
    have hdec : decodeChunks 4 (encodeElems 4 d) = .ok d :=
      decodeChunks_encodeElems 4 (by norm_num) d
        (by simpa [pow256, Kind.elt_size_in_bytes] using hx)
    simp [deserializeRecord, visit_map, visitEntries_entries, f32.from_bytes,
      Kind.elt_size_in_bytes, hdec, Except.map, Tensor.of_slice, Tensor.view_,
      hlen]
  case Double =>
    have hdec : decodeChunks 8 (encodeElems 8 d) = .ok d :=
      decodeChunks_encodeElems 8 (by norm_num) d
        (by simpa [pow256, Kind.elt_size_in_bytes] using hx)
    simp [deserializeRecord, visit_map, visitEntries_entries, f64.from_bytes,
      Kind.elt_size_in_bytes, hdec, Except.map, Tensor.of_slice, Tensor.view_,
      hlen]
  all_goals simp [supportedKind] at hk

/-- C1: for every tensor whose kind is in the supported set (unsigned-8,
signed-32, signed-64, float32, float64), whatever its shape, decoding the
encoded record yields a tensor identical to the original in kind, shape, and
element bit patterns. -/
theorem c1_roundtrip (t : Tensor) (hk : supportedKind t.kind = true)
    (hlen : t.data.length = t.size.prod)
    (hx : ∀ x ∈ t.data, x < 2 ^ (8 * t.kind.elt_size_in_bytes)) :
    ∃ r, serialize t = .ok r ∧ deserializeRecord r = .ok t :=
  ⟨⟨t.kind, t.size, encodeElems t.kind.elt_size_in_bytes t.data⟩,
    serialize_supported t hlen hk, deserializeRecord_encodeElems t hlen hk hx⟩

/-- C1 witness: the round trip at a concrete signed-32 tensor of shape [2]. -/
theorem c1_roundtrip_witness :
    ∃ r, serialize ⟨.Int, [2], [5, 300]⟩ = .ok r ∧
      deserializeRecord r = .ok ⟨.Int, [2], [5, 300]⟩ :=
  c1_roundtrip ⟨.Int, [2], [5, 300]⟩ (by decide) (by decide) (by decide)

/-- C5: for every tensor of a supported kind the encoded payload holds exactly
size.prod * elt_size_in_bytes bytes. -/
theorem c5_payload_length (t : Tensor) (hk : supportedKind t.kind = true)
    (hlen : t.data.length = t.size.prod) :
    ∃ r, serialize t = .ok r ∧
      r.data.length = t.size.prod * t.kind.elt_size_in_bytes := by
  refine ⟨_, serialize_supported t hlen hk, ?_⟩
  simp [encodeElems_length, hlen]

/-- C5 witness: the payload length at a concrete float64 tensor of shape
[1, 2]. -/
theorem c5_payload_length_witness :
    ∃ r, serialize ⟨.Double, [1, 2], [0, 1]⟩ = .ok r ∧
      r.data.length = [1, 2].prod * Kind.elt_size_in_bytes .Double :=
  c5_payload_length ⟨.Double, [1, 2], [0, 1]⟩ (by decide) (by decide)

/-- C2: encoding a tensor of an unsupported kind fails, and a record of an
unsupported kind is likewise rejected on decode — but both paths abort the
process through `unimplemented!` rather than returning a recoverable
UnsupportedKind error; no payload is ever produced. -/
theorem c2_unsupported_kind_aborts (t : Tensor)
    (hk : supportedKind t.kind = false) (hlen : t.data.length = t.size.prod) :
    (serialize t = .error .panicked ∧ ¬ (Failure.panicked).isRecoverable) ∧
      ∀ (sz bytes : List ℕ),
        visit_map [(("kind"), .vKind t.kind.variantIndex),
          (("size"), .vSize sz), (("data"), .vData bytes)] = .error .panicked := by
  obtain ⟨k, sz0, d⟩ := t
  simp only at hk hlen
  refine ⟨⟨?_, by simp [Failure.isRecoverable]⟩, ?_⟩
  · cases k <;> simp_all [serialize, Tensor.view, supportedKind]
  · intro sz bytes
    cases k <;> first
      | rfl
      | simp_all [supportedKind]

/-- C2 witness: a signed-16 tensor aborts on encode, and a record carrying the
signed-16 tag aborts on decode. -/
theorem c2_unsupported_kind_aborts_witness :
    serialize ⟨.Int16, [1], [7]⟩ = .error .panicked ∧
      visit_map [(("kind"), .vKind 2), (("size"), .vSize [1]),
        (("data"), .vData [0, 0])] = .error .panicked :=
  ⟨(c2_unsupported_kind_aborts ⟨.Int16, [1], [7]⟩ (by decide) (by decide)).1.1,
    (c2_unsupported_kind_aborts ⟨.Int16, [1], [7]⟩ (by decide) (by decide)).2
      [1] [0, 0]⟩

/-- C3: decoding a record of kind float32 whose payload length is not a
multiple of 4 fails — but through the panicking `unwrap` of the failed chunk
conversion (a process abort), not through a recoverable TruncatedPayload
error. -/
theorem c3_truncated_payload_aborts (sz bytes : List ℕ)
    (h : ¬ (4 ∣ bytes.length)) :
    visit_map [(("kind"), .vKind 6), (("size"), .vSize sz),
        (("data"), .vData bytes)] = .error .panicked ∧
      ¬ (Failure.panicked).isRecoverable := by
  have hmod : bytes.length % 4 ≠ 0 := fun hm => h (Nat.dvd_of_mod_eq_zero hm)
  refine ⟨?_, by simp [Failure.isRecoverable]⟩
  simp [visit_map, visitEntries, visit_str_kind, visit_str_size,
    visit_str_data, Value.asKind, Value.asSize, Value.asData,
    Kind.deserializeTag, f32.from_bytes, Except.map,
    decodeChunks_not_dvd 4 bytes hmod]

/-- C3 witness: a float32 record with a 3-byte payload aborts on decode. -/
theorem c3_truncated_payload_aborts_witness :
    visit_map [(("kind"), .vKind 6), (("size"), .vSize [1]),
        (("data"), .vData [0, 0, 0])] = .error .panicked ∧
      ¬ (Failure.panicked).isRecoverable :=
  c3_truncated_payload_aborts [1] [0, 0, 0] (by decide)

/-- C4: Kind::of_c_int hits `panic!` (a process abort) for every tag outside
the closed set [0, 11] — tag 255 included — instead of returning a recoverable
UnknownKind error; the serde decode path, which runs the derived Kind
deserializer rather than of_c_int, does report a recoverable unknown-variant
error for tag 255. -/
theorem c4_unknown_tag_aborts (v : ℤ) (h : v < 0 ∨ 11 < v) :
    (Kind.of_c_int v = .error .panicked ∧
      ¬ (Failure.panicked).isRecoverable) ∧
      visit_map [(("kind"), .vKind 255), (("size"), .vSize []),
          (("data"), .vData [])] = .error (.unknownVariant 255) ∧
        (Failure.unknownVariant 255).isRecoverable := by
  refine ⟨⟨?_, by simp [Failure.isRecoverable]⟩, ?_,
    by simp [Failure.isRecoverable]⟩
  · rcases h with h | h <;>
      · unfold Kind.of_c_int
        iterate 12 rw [if_neg (by omega)]
  · simp [visit_map, visitEntries, visit_str_kind, visit_str_size,
      visit_str_data, Value.asKind, Value.asSize, Value.asData,
      Kind.deserializeTag]

/-- C4 witness: of_c_int aborts at tag 255. -/
theorem c4_unknown_tag_aborts_witness :
    (Kind.of_c_int 255 = .error .panicked ∧
      ¬ (Failure.panicked).isRecoverable) ∧
      visit_map [(("kind"), .vKind 255), (("size"), .vSize []),
          (("data"), .vData [])] = .error (.unknownVariant 255) ∧
        (Failure.unknownVariant 255).isRecoverable :=
  c4_unknown_tag_aborts 255 (by decide)

/-- C6: the tag/kind mapping is a total bijection over the closed tag set
[0, 11]: c_int inverts of_c_int on every tag of the set, and of_c_int inverts
c_int on every kind. -/
theorem c6_tag_bijection :
    (∀ v : ℤ, 0 ≤ v → v < 12 → (Kind.of_c_int v).map Kind.c_int = .ok v) ∧
      ∀ k : Kind, Kind.of_c_int (Kind.c_int k) = .ok k := by
  constructor
  · intro v h0 h12
    interval_cases v <;> rfl
  · intro k
    cases k <;> rfl

/-- C6 witness: the bijection at tag 3 and at kind Float. -/
theorem c6_tag_bijection_witness :
    (Kind.of_c_int 3).map Kind.c_int = .ok 3 ∧
      Kind.of_c_int (Kind.c_int .Float) = .ok .Float :=
  ⟨c6_tag_bijection.1 3 (by decide) (by decide), c6_tag_bijection.2 .Float⟩

theorem visit_str_ok (s : String) (f : TensorField)
    (h : TensorField.visit_str s = .ok f) :
    s = "kind" ∨ s = "size" ∨ s = "data" := by
  unfold TensorField.visit_str at h
  split_ifs at h with h1 h2 h3
  · exact Or.inl h1
  · exact Or.inr (Or.inl h2)
  · exact Or.inr (Or.inr h3)

theorem visitEntries_ok_keys (entries : List (String × Value)) :
    ∀ (k : Option Kind) (so dd : Option (List ℕ))
      (res : Option Kind × Option (List ℕ) × Option (List ℕ)),
      visitEntries entries k so dd = .ok res →
      ∀ p ∈ entries, p.1 = "kind" ∨ p.1 = "size" ∨ p.1 = "data" := by
  induction entries with
  | nil =>
    intro k so dd res _ p hp
    simp at hp
  | cons q rest ih =>
    intro k so dd res h p hp
    obtain ⟨key, w⟩ := q
    rcases hkey : TensorField.visit_str key with e | f
    · simp only [visitEntries, hkey] at h
      exact Except.noConfusion h
    · have hknown := visit_str_ok key f hkey
      rcases List.mem_cons.mp hp with rfl | hp'
      · exact hknown
      · cases f
        case kind =>
          simp only [visitEntries, hkey] at h
          cases k with
          | some _ => simp at h
          | none =>
            rcases hv : Value.asKind w with e | kk
            · simp only [hv] at h
              exact Except.noConfusion h
            · simp only [hv] at h
              exact ih _ _ _ _ h p hp'
        case size =>
          simp only [visitEntries, hkey] at h
          cases so with
          | some _ => simp at h
          | none =>
            rcases hv : Value.asSize w with e | ss
            · simp only [hv] at h
              exact Except.noConfusion h
            · simp only [hv] at h
              exact ih _ _ _ _ h p hp'
        case data =>
          simp only [visitEntries, hkey] at h
          cases dd with
          | some _ => simp at h
          | none =>
            rcases hv : Value.asData w with e | dv
            · simp only [hv] at h
              exact Except.noConfusion h
            · simp only [hv] at h
              exact ih _ _ _ _ h p hp'

/-- C7: decode requires the fields kind, size, data each present exactly once
and accepts them in any arrival order: all six orders decode to the same
result, an absent field fails with missing_field, a repeated field fails with
duplicate_field, and an entry carrying any other field name makes decoding
fail. -/
theorem c7_field_discipline :
    (∀ (tag : ℕ) (sz dt : List ℕ),
      (visit_map [(("kind"), .vKind tag), (("data"), .vData dt),
          (("size"), .vSize sz)] =
        visit_map [(("kind"), .vKind tag), (("size"), .vSize sz),
          (("data"), .vData dt)]) ∧
      (visit_map [(("size"), .vSize sz), (("kind"), .vKind tag),
          (("data"), .vData dt)] =
        visit_map [(("kind"), .vKind tag), (("size"), .vSize sz),
          (("data"), .vData dt)]) ∧
      (visit_map [(("size"), .vSize sz), (("data"), .vData dt),
          (("kind"), .vKind tag)] =
        visit_map [(("kind"), .vKind tag), (("size"), .vSize sz),
          (("data"), .vData dt)]) ∧
      (visit_map [(("data"), .vData dt), (("kind"), .vKind tag),
          (("size"), .vSize sz)] =
        visit_map [(("kind"), .vKind tag), (("size"), .vSize sz),
          (("data"), .vData dt)]) ∧
      (visit_map [(("data"), .vData dt), (("size"), .vSize sz),
          (("kind"), .vKind tag)] =
        visit_map [(("kind"), .vKind tag), (("size"), .vSize sz),
          (("data"), .vData dt)])) ∧
    (∀ sz dt : List ℕ,
      visit_map [(("size"), .vSize sz), (("data"), .vData dt)] =
        .error (.missingField ("kind"))) ∧
    (∀ (k : Kind) (dt : List ℕ),
      visit_map [(("kind"), .vKind k.variantIndex), (("data"), .vData dt)] =
        .error (.missingField ("size"))) ∧
    (∀ (k : Kind) (sz : List ℕ),
      visit_map [(("kind"), .vKind k.variantIndex), (("size"), .vSize sz)] =
        .error (.missingField ("data"))) ∧
    (∀ (k : Kind) (v : Value) (rest : List (String × Value)),
      visit_map ((("kind"), .vKind k.variantIndex) :: (("kind"), v) :: rest) =
        .error (.duplicateField ("kind"))) ∧
    (∀ (sz : List ℕ) (v : Value) (rest : List (String × Value)),
      visit_map ((("size"), .vSize sz) :: (("size"), v) :: rest) =
        .error (.duplicateField ("size"))) ∧
    (∀ (dt : List ℕ) (v : Value) (rest : List (String × Value)),
      visit_map ((("data"), .vData dt) :: (("data"), v) :: rest) =
        .error (.duplicateField ("data"))) ∧
    ∀ (s : String) (v : Value) (entries : List (String × Value)),
      s ≠ "kind" → s ≠ "size" → s ≠ "data" → (s, v) ∈ entries →
      ∃ e, visit_map entries = .error e := by
  refine ⟨?_, ?_, ?_, ?_, ?_, ?_, ?_, ?_⟩
  · intro tag sz dt
    rcases htag : Kind.deserializeTag tag with e | k <;>
      refine ⟨?_, ?_, ?_, ?_, ?_⟩ <;>
        simp [visit_map, visitEntries, visit_str_kind, visit_str_size,
          visit_str_data, Value.asKind, Value.asSize, Value.asData, htag]
  · intro sz dt
    simp [visit_map, visitEntries, visit_str_size, visit_str_data,
      Value.asSize, Value.asData]
  · intro k dt
    simp [visit_map, visitEntries, visit_str_kind, visit_str_data,
      Value.asKind, Value.asData, deserializeTag_variantIndex]
  · intro k sz
    simp [visit_map, visitEntries, visit_str_kind, visit_str_size,
      Value.asKind, Value.asSize, deserializeTag_variantIndex]
  · intro k v rest
    simp [visit_map, visitEntries, visit_str_kind, Value.asKind,
      deserializeTag_variantIndex]
  · intro sz v rest
    simp [visit_map, visitEntries, visit_str_size, Value.asSize]
  · intro dt v rest
    simp [visit_map, visitEntries, visit_str_data, Value.asData]
  · intro s v entries hk hs hd hmem
    rcases hres : visitEntries entries none none none with e | res
    · exact ⟨e, by simp [visit_map, hres]⟩
    · exfalso
      have := visitEntries_ok_keys entries none none none res hres (s, v) hmem
      simp [hk, hs, hd] at this

/-- C7 witness: a record containing an entry named bogus fails to decode. -/
theorem c7_field_discipline_witness :
    ∃ e, visit_map [(("bogus"), Value.vSize [])] = .error e :=
  c7_field_discipline.2.2.2.2.2.2.2 ("bogus") (Value.vSize [])
    [(("bogus"), Value.vSize [])] (by decide) (by decide) (by decide)
    (by simp)

/-- The float64 test vector of serde.rs tests::floating_point_tensor: the
IEEE-754 bit patterns of [1.432, 0.0, 432.43, 3e12, 3.1e-3, 7.9987], shaped
(1, 3, 2). -/
def testTensor : Tensor :=
  ⟨.Double, [1, 3, 2],
    [0x3FF6E978D4FDF3B6, 0, 0x407B06E147AE147B, 0x4285D3EF79800000,
     0x3F69652BD3C36113, 0x401FFEAB367A0F91]⟩

/-- The 48-byte big-endian payload of the same test. -/
def testBytes : List ℕ :=
  [63, 246, 233, 120, 212, 253, 243, 182, 0, 0, 0, 0, 0, 0, 0, 0, 64, 123, 6,
   225, 71, 174, 20, 123, 66, 133, 211, 239, 121, 128, 0, 0, 63, 105, 101, 43,
   211, 195, 97, 19, 64, 31, 254, 171, 54, 122, 15, 145]

set_option maxHeartbeats 1000000 in
/-- C8: encoding the float64 test tensor of shape (1,3,2) produces kind tag 7,
size [1,3,2] and the 48-byte big-endian payload whose first 8 bytes encode
1.432; decoding that exact record reproduces the original bit patterns. -/
theorem c8_float64_scenario :
    serialize testTensor = .ok ⟨.Double, [1, 3, 2], testBytes⟩ ∧
      Kind.c_int .Double = 7 ∧ Kind.variantIndex .Double = 7 ∧
      testBytes.length = 48 ∧
      testBytes.take 8 = [63, 246, 233, 120, 212, 253, 243, 182] ∧
      deserializeRecord ⟨.Double, [1, 3, 2], testBytes⟩ = .ok testTensor :=
  ⟨rfl, rfl, rfl, rfl, rfl,
    deserializeRecord_encodeElems testTensor rfl rfl (by decide)⟩

set_option maxHeartbeats 1000000 in
/-- C9: an empty shape is a scalar holding one element (the empty product):
encoding a scalar signed-64 tensor with value 42 produces size [] and the
8-byte big-endian payload 00 00 00 00 00 00 00 2a, which decodes back to the
scalar. -/
theorem c9_scalar_scenario :
    serialize ⟨.Int64, [], [42]⟩ =
        .ok ⟨.Int64, [], [0, 0, 0, 0, 0, 0, 0, 42]⟩ ∧
      deserializeRecord ⟨.Int64, [], [0, 0, 0, 0, 0, 0, 0, 42]⟩ =
        .ok ⟨.Int64, [], [42]⟩ ∧
      ([] : List ℕ).prod = 1 :=
  ⟨rfl, deserializeRecord_encodeElems ⟨.Int64, [], [42]⟩ rfl rfl (by decide),
    rfl⟩

/-- C10: for unsigned-8 the truncation branch of the byte decoder is
unreachable: the element width is 1, so every byte sequence decodes totally
into a 1-D tensor holding exactly payload-length elements. -/
theorem c10_uint8_total (bs : List ℕ) :
    u8.from_bytes bs = .ok ⟨.Uint8, [bs.length], bs⟩ ∧
      Kind.elt_size_in_bytes .Uint8 = 1 := by
  refine ⟨?_, rfl⟩
  simp [u8.from_bytes, decodeChunks_one, Tensor.of_slice, Except.map]
